import Mathlib

/-!
Verification of the column definition/equivalence engine of the schema
management tool (package `tengo`, file `column.go`).

The `Column` model, its `Definition` renderer and the `Equals` /
`Equivalent` comparators are translated directly from `column.go`.
Supporting types that live elsewhere in the repository (the flavor
descriptor, the structured column type, and the two escaping helpers)
are modelled from the specification, as marked in their doc comments.
-/

/-- Modelled from the spec: the vendor tag of a flavor descriptor is an
enumerated variant (primary vendor and two forks). Missing from the
sources: the `Flavor` type of the repository. -/
inductive Vendor where
  | mysql
  | mariadb
  | percona
deriving DecidableEq, Repr

/-- Modelled from the spec: a Flavor identifies a database vendor and a
version as an ordered triple (major, minor, patch), immutable. Missing
from the sources: the `Flavor` type of the repository. -/
structure Flavor where
  vendor : Vendor
  major : Nat
  minor : Nat
  patch : Nat
deriving DecidableEq, Repr

/-- Modelled from the spec: version-at-least comparison of the triple,
lexicographic, with omitted minor/patch treated as 0. -/
def Flavor.verAtLeast (f : Flavor) (maj min : Nat) : Bool :=
  (f.major > maj) || (f.major == maj && f.minor >= min)

/-- Modelled from the spec: vendor predicate for the primary vendor.
Missing from the sources: `Flavor.IsMySQL`. -/
def Flavor.IsMySQL (f : Flavor) : Bool :=
  f.vendor == Vendor.mysql

/-- Modelled from the spec: vendor predicate for the MariaDB fork.
Missing from the sources: `Flavor.IsMariaDB`. -/
def Flavor.IsMariaDB (f : Flavor) : Bool :=
  f.vendor == Vendor.mariadb

/-- Modelled from the spec: vendor predicate for the Percona fork.
Missing from the sources: `Flavor.IsPercona`. -/
def Flavor.IsPercona (f : Flavor) : Bool :=
  f.vendor == Vendor.percona

/-- Modelled from the spec: true when the flavor is the primary vendor at
major version at least `maj`; false immediately for any other vendor.
Missing from the sources: `Flavor.MinMySQL`. -/
def Flavor.MinMySQL (f : Flavor) (maj : Nat) : Bool :=
  f.IsMySQL && f.verAtLeast maj 0

/-- Modelled from the spec: true when the flavor is the MariaDB fork at
version at least `maj.min`; false immediately for any other vendor.
Missing from the sources: `Flavor.MinMariaDB`. -/
def Flavor.MinMariaDB (f : Flavor) (maj min : Nat) : Bool :=
  f.IsMariaDB && f.verAtLeast maj min

/-- Modelled from the spec: the flavor-dependent opener of the versioned
inline comment used for column compression clauses. Missing from the
sources: `Flavor.compressedColumnOpenComment`. -/
def Flavor.compressedColumnOpenComment (f : Flavor) : String :=
  if f.IsMariaDB then "/*M!100301 " else "/*!50633 "

/-- Modelled from the spec: a structured type descriptor holds a base type
name plus modifiers — an optional integer display width and the remaining
rendered modifiers (signedness, length, precision/scale) as trailing text.
Missing from the sources: the `ColumnType` struct. -/
structure ColumnType where
  base : String
  displayWidth : Option Nat
  mods : String
deriving DecidableEq, Repr

/-- Modelled from the spec: canonical rendered text of a structured type
descriptor. Missing from the sources: `ColumnType.String`. -/
def ColumnType.toStr (t : ColumnType) : String :=
  t.base ++ (match t.displayWidth with
    | some w => "(" ++ toString w ++ ")"
    | none => "") ++ t.mods

/-- Modelled from the spec: two type descriptors are equivalent when
identical, or when they differ only in the presence/absence of an integer
display width on an otherwise-identical base type and modifiers. Missing
from the sources: `ColumnType.Equivalent`. -/
def ColumnType.Equivalent (t u : ColumnType) : Bool :=
  t == u ||
    (t.base == u.base && t.mods == u.mods &&
      ((t.displayWidth.isSome && u.displayWidth.isNone) ||
       (t.displayWidth.isNone && u.displayWidth.isSome)))

/-- The backquote character, used by identifier escaping. -/
def bq : Char := Char.ofNat 96

/-- The single-quote character, used by literal escaping. -/
def squoteChar : Char := Char.ofNat 39

/-- Doubles each occurrence of `ch` in a character list. -/
def doubleChar (ch : Char) : List Char → List Char
  | [] => []
  | c :: rest =>
    if c = ch then c :: c :: doubleChar ch rest
    else c :: doubleChar ch rest

/-- Modelled from the spec: identifiers are wrapped in the database
quoting character with any embedded quote character doubled. Missing
from the sources: `EscapeIdentifier`. -/
def EscapeIdentifier (name : String) : String :=
  String.mk (bq :: doubleChar bq name.data ++ [bq])

/-- Modelled from the spec: comment text is escaped for safe embedding
inside a single-quoted SQL string literal by doubling embedded single
quotes. Missing from the sources: `EscapeValueForCreateTable`. -/
def EscapeValueForCreateTable (value : String) : String :=
  String.mk (doubleChar squoteChar value.data)

/-- A single column of a table; field for field the `Column` struct of
`column.go`. -/
structure Column where
  name : String
  type : ColumnType
  nullable : Bool
  autoIncrement : Bool
  default : String
  onUpdate : String
  generationExpr : String
  virtual : Bool
  charSet : String
  collation : String
  showCharSet : Bool
  showCollation : Bool
  compression : String
  comment : String
  invisible : Bool
  checkClause : String
  spatialReferenceID : Nat
  hasSpatialReference : Bool
deriving DecidableEq, Repr

/-- Clause 1 of `Column.Definition`: the escaped column name. -/
def nameClause (c : Column) : String :=
  EscapeIdentifier c.name

/-- Clause 2 of `Column.Definition`: the column data type, with MariaDB
column compression inlined after the type. -/
def typeClause (c : Column) (flavor : Flavor) : String :=
  if (c.compression != "") && flavor.IsMariaDB then
    c.type.toStr ++ " " ++ flavor.compressedColumnOpenComment ++ c.compression ++ "*/"
  else
    c.type.toStr

/-- The CHARACTER SET clause of `Column.Definition`, when present. -/
def charSetClauses (c : Column) : List String :=
  if (c.charSet != "") && c.showCharSet then ["CHARACTER SET " ++ c.charSet] else []

/-- The COLLATE clause of `Column.Definition`, when present. -/
def collationClauses (c : Column) : List String :=
  if (c.collation != "") && c.showCollation then ["COLLATE " ++ c.collation] else []

/-- The generation expression clause of `Column.Definition`, when present. -/
def generationClauses (c : Column) : List String :=
  if c.generationExpr != "" then
    ["GENERATED ALWAYS AS (" ++ c.generationExpr ++ ") " ++
      (if c.virtual then "VIRTUAL" else "STORED")]
  else []

/-- The nullability clause of `Column.Definition`: `NOT NULL` when not
nullable; explicit `NULL` when nullable with base type timestamp; nothing
otherwise. -/
def nullabilityClauses (c : Column) : List String :=
  if !c.nullable then ["NOT NULL"]
  else if c.type.base == "timestamp" then ["NULL"]
  else []

/-- The SRID clause of `Column.Definition`, for MySQL 8.0+, when present. -/
def sridClauses (c : Column) (flavor : Flavor) : List String :=
  if c.hasSpatialReference && flavor.MinMySQL 8 then
    ["/*!80003 SRID " ++ toString c.spatialReferenceID ++ " */"]
  else []

/-- The early invisibility clause of `Column.Definition`, used by MariaDB
10.3-11.6 which places `INVISIBLE` in this spot. -/
def earlyInvisibleClauses (c : Column) (flavor : Flavor) : List String :=
  if c.invisible && flavor.IsMariaDB && !flavor.MinMariaDB 11 7 then ["INVISIBLE"] else []

/-- The Percona Server column compression clause of `Column.Definition`,
when present. -/
def perconaCompressionClauses (c : Column) (flavor : Flavor) : List String :=
  if (c.compression != "") && flavor.IsPercona then
    [flavor.compressedColumnOpenComment ++ "COLUMN_FORMAT " ++ c.compression ++ " */"]
  else []

/-- The DEFAULT clause of `Column.Definition`, when present. -/
def defaultClauses (c : Column) : List String :=
  if c.default != "" then ["DEFAULT " ++ c.default] else []

/-- The ON UPDATE clause of `Column.Definition`, when present. -/
def onUpdateClauses (c : Column) : List String :=
  if c.onUpdate != "" then ["ON UPDATE " ++ c.onUpdate] else []

/-- The AUTO_INCREMENT clause of `Column.Definition`, when present. -/
def autoIncrementClauses (c : Column) : List String :=
  if c.autoIncrement then ["AUTO_INCREMENT"] else []

/-- The late invisibility clause of `Column.Definition`: a versioned
inline comment for MySQL, or bare `INVISIBLE` for MariaDB 11.7+. -/
def lateInvisibleClauses (c : Column) (flavor : Flavor) : List String :=
  if c.invisible then
    if flavor.IsMySQL then ["/*!80023 INVISIBLE */"]
    else if flavor.MinMariaDB 11 7 then ["INVISIBLE"]
    else []
  else []

/-- The COMMENT clause of `Column.Definition`, when present. -/
def commentClauses (c : Column) : List String :=
  if c.comment != "" then
    ["COMMENT " ++ String.mk [squoteChar] ++ EscapeValueForCreateTable c.comment ++ String.mk [squoteChar]]
  else []

/-- The inline CHECK constraint clause of `Column.Definition`, when
present (MariaDB only field). -/
def checkClauses (c : Column) : List String :=
  if c.checkClause != "" then ["CHECK (" ++ c.checkClause ++ ")"] else []

/-- The ordered clause list built by `Column.Definition` in `column.go`:
the successive appends of the Go function, in source order. -/
def Column.DefinitionClauses (c : Column) (flavor : Flavor) : List String :=
  [nameClause c, typeClause c flavor]
    ++ charSetClauses c
    ++ collationClauses c
    ++ generationClauses c
    ++ nullabilityClauses c
    ++ sridClauses c flavor
    ++ earlyInvisibleClauses c flavor
    ++ perconaCompressionClauses c flavor
    ++ defaultClauses c
    ++ onUpdateClauses c
    ++ autoIncrementClauses c
    ++ lateInvisibleClauses c flavor
    ++ commentClauses c
    ++ checkClauses c

/-- `Column.Definition` of `column.go`: the column definition clause text,
the clauses joined by single spaces. -/
def Column.Definition (c : Column) (flavor : Flavor) : String :=
  String.intercalate " " (c.DefinitionClauses flavor)

/-- `Column.Equals` of `column.go`, on nilable column references: both nil
compare equal, nil never equals non-nil, and two non-nil columns compare
by full structural equality of all fields. -/
def Column.Equals : Option Column → Option Column → Bool
  | none, none => true
  | none, some _ => false
  | some _, none => false
  | some c, some other => decide (c = other)

/-- `charsetsEquivalent` of `column.go`: equal strings, or the hard-coded
utf8/utf8mb3 alias pair in either direction. -/
def charsetsEquivalent (a b : String) : Bool :=
  (a == b) || (a == "utf8mb3" && b == "utf8") || (a == "utf8" && b == "utf8mb3")

/-- `strings.Cut(s, sep)` on character lists: the part before the first
occurrence of the separator and the part after it; when the separator is
absent, the whole list and the empty list. -/
def cutChar (sep : Char) : List Char → List Char × List Char
  | [] => ([], [])
  | c :: rest =>
    if c = sep then ([], rest)
    else
      let p := cutChar sep rest
      (c :: p.1, p.2)

/-- `strings.Cut(s, "_")` as used by `collationsEquivalent`. -/
def cutUnderscore (s : String) : String × String :=
  let p := cutChar (Char.ofNat 95) s.data
  (String.mk p.1, String.mk p.2)

/-- `collationsEquivalent` of `column.go`: equal strings, or names that
split at the first underscore into the same rest with the utf8/utf8mb3
alias pair as charset parts, in either direction. -/
def collationsEquivalent (a b : String) : Bool :=
  if a == b then true
  else if (cutUnderscore a).2 != (cutUnderscore b).2 then false
  else
    ((cutUnderscore a).1 == "utf8" && (cutUnderscore b).1 == "utf8mb3") ||
    ((cutUnderscore a).1 == "utf8mb3" && (cutUnderscore b).1 == "utf8")

/-- The normalized copy built inside `Column.Equivalent` of `column.go`:
a copy of `c` whose cosmetic fields are set to `other`'s values — the type
and both visibility flags unconditionally, the character set only when the
two charsets are charset-equivalent, and the collation only when the two
collations are collation-equivalent. -/
def selfCopyNormalized (c other : Column) : Column :=
  { c with
    type := other.type
    showCharSet := other.showCharSet
    showCollation := other.showCollation
    charSet := if charsetsEquivalent c.charSet other.charSet then other.charSet else c.charSet
    collation := if collationsEquivalent c.collation other.collation then other.collation else c.collation }

/-- `Column.Equivalent` of `column.go`, on nilable column references: true
when equal; false when exactly one side is nil or the structured types are
not type-equivalent; otherwise full equality of `other` with a copy of the
receiver whose cosmetic fields are normalized to `other`'s values. -/
def Column.Equivalent : Option Column → Option Column → Bool
  | c, other =>
    if Column.Equals c other then true
    else
      match c, other with
      | some c, some other =>
        if !(c.type.Equivalent other.type) then false
        else decide (selfCopyNormalized c other = other)
      | _, _ => false

/-- Spec section 4.3, stated in its own words: the fifteen optional
clauses of a column definition, in the exact flavor-conditional order of
the numbered list (an absent clause is `none`). -/
def specClauseOptions (c : Column) (flavor : Flavor) : List (Option String) :=
  [ some (EscapeIdentifier c.name),
    some (if c.compression ≠ "" ∧ flavor.IsMariaDB = true then
      c.type.toStr ++ " " ++ flavor.compressedColumnOpenComment ++ c.compression ++ "*/"
    else c.type.toStr),
    if c.charSet ≠ "" ∧ c.showCharSet = true then some ("CHARACTER SET " ++ c.charSet) else none,
    if c.collation ≠ "" ∧ c.showCollation = true then some ("COLLATE " ++ c.collation) else none,
    if c.generationExpr ≠ "" then
      some ("GENERATED ALWAYS AS (" ++ c.generationExpr ++ ") " ++
        (if c.virtual = true then "VIRTUAL" else "STORED"))
    else none,
    if c.nullable = false then some "NOT NULL"
    else if c.type.base = "timestamp" then some "NULL"
    else none,
    if c.hasSpatialReference = true ∧ flavor.MinMySQL 8 = true then
      some ("/*!80003 SRID " ++ toString c.spatialReferenceID ++ " */")
    else none,
    if c.invisible = true ∧ flavor.IsMariaDB = true ∧ flavor.MinMariaDB 11 7 = false then
      some "INVISIBLE"
    else none,
    if c.compression ≠ "" ∧ flavor.IsPercona = true then
      some (flavor.compressedColumnOpenComment ++ "COLUMN_FORMAT " ++ c.compression ++ " */")
    else none,
    if c.default ≠ "" then some ("DEFAULT " ++ c.default) else none,
    if c.onUpdate ≠ "" then some ("ON UPDATE " ++ c.onUpdate) else none,
    if c.autoIncrement = true then some "AUTO_INCREMENT" else none,
    if c.invisible = true ∧ flavor.IsMySQL = true then some "/*!80023 INVISIBLE */"
    else if c.invisible = true ∧ flavor.MinMariaDB 11 7 = true then some "INVISIBLE"
    else none,
    if c.comment ≠ "" then
      some ("COMMENT " ++ String.mk [squoteChar] ++ EscapeValueForCreateTable c.comment ++ String.mk [squoteChar])
    else none,
    if c.checkClause ≠ "" then some ("CHECK (" ++ c.checkClause ++ ")") else none ]

/-- Spec section 4.3, stated in its own words: the column definition is
the present clauses of the ordered clause table, joined by single spaces. -/
def DefinitionSpec (c : Column) (flavor : Flavor) : String :=
  String.intercalate " " (List.filterMap id (specClauseOptions c flavor))

/-- The end-to-end example column of the spec: non-nullable
auto-incrementing bare-int column named id, nothing else set. -/
def idCol : Column :=
  { name := "id"
    type := { base := "int", displayWidth := none, mods := "" }
    nullable := false
    autoIncrement := true
    default := ""
    onUpdate := ""
    generationExpr := ""
    virtual := false
    charSet := ""
    collation := ""
    showCharSet := false
    showCollation := false
    compression := ""
    comment := ""
    invisible := false
    checkClause := ""
    spatialReferenceID := 0
    hasSpatialReference := false }

/-- A MySQL 8 flavor, used as a concrete input by witnesses. -/
def flavorMySQL8 : Flavor :=
  { vendor := Vendor.mysql, major := 8, minor := 0, patch := 36 }

/-- A spatial column with presence flag set and raw SRID value 0, used as
a concrete input by witnesses. -/
def sridZeroCol : Column :=
  { idCol with
    type := { base := "point", displayWidth := none, mods := "" }
    hasSpatialReference := true
    spatialReferenceID := 0 }

/-- One of the two otherwise-identical columns used for the C7
counterexample: visibility flag off. -/
def visColA : Column := idCol

/-- The other column of the C7 pair: only the charset visibility flag
differs. -/
def visColB : Column := { idCol with showCharSet := true }

/-- A textual column using the three-byte utf8 alias charset, charset
visibility on. -/
def u8Col : Column :=
  { idCol with
    type := { base := "varchar", displayWidth := none, mods := "(20)" }
    nullable := true
    autoIncrement := false
    charSet := "utf8"
    collation := "utf8_general_ci"
    showCharSet := true
    showCollation := true }

/-- The same column with the four-byte-max synonym charset name. -/
def u8mb3Col : Column := { u8Col with charSet := "utf8mb3" }

theorem filterMap_id_cons (o : Option α) (l : List (Option α)) :
    List.filterMap id (o :: l) = o.toList ++ List.filterMap id l := by
  cases o <;> simp

theorem typePieceEq (c : Column) (f : Flavor) :
    (if c.compression ≠ "" ∧ f.IsMariaDB = true then
      c.type.toStr ++ " " ++ f.compressedColumnOpenComment ++ c.compression ++ "*/"
    else c.type.toStr) = typeClause c f := by
  by_cases h1 : c.compression = "" <;> by_cases h2 : f.IsMariaDB = true <;>
    simp [typeClause, h1, h2]

theorem charSetPieceEq (c : Column) :
    (if c.charSet ≠ "" ∧ c.showCharSet = true then
      some ("CHARACTER SET " ++ c.charSet) else none : Option String).toList
      = charSetClauses c := by
  by_cases h1 : c.charSet = "" <;> by_cases h2 : c.showCharSet = true <;>
    simp [charSetClauses, h1, h2]

theorem collationPieceEq (c : Column) :
    (if c.collation ≠ "" ∧ c.showCollation = true then
      some ("COLLATE " ++ c.collation) else none : Option String).toList
      = collationClauses c := by
  by_cases h1 : c.collation = "" <;> by_cases h2 : c.showCollation = true <;>
    simp [collationClauses, h1, h2]

theorem generationPieceEq (c : Column) :
    (if c.generationExpr ≠ "" then
      some ("GENERATED ALWAYS AS (" ++ c.generationExpr ++ ") " ++
        (if c.virtual = true then "VIRTUAL" else "STORED"))
    else none : Option String).toList = generationClauses c := by
  by_cases h1 : c.generationExpr = "" <;> by_cases h2 : c.virtual = true <;>
    simp [generationClauses, h1, h2]

theorem nullabilityPieceEq (c : Column) :
    (if c.nullable = false then some "NOT NULL"
    else if c.type.base = "timestamp" then some "NULL"
    else none : Option String).toList = nullabilityClauses c := by
  by_cases h1 : c.nullable = true <;> by_cases h2 : c.type.base = "timestamp" <;>
    simp [nullabilityClauses, h1, h2]

theorem sridPieceEq (c : Column) (f : Flavor) :
    (if c.hasSpatialReference = true ∧ f.MinMySQL 8 = true then
      some ("/*!80003 SRID " ++ toString c.spatialReferenceID ++ " */")
    else none : Option String).toList = sridClauses c f := by
  by_cases h1 : c.hasSpatialReference = true <;> by_cases h2 : f.MinMySQL 8 = true <;>
    simp [sridClauses, h1, h2]

theorem earlyInvisPieceEq (c : Column) (f : Flavor) :
    (if c.invisible = true ∧ f.IsMariaDB = true ∧ f.MinMariaDB 11 7 = false then
      some "INVISIBLE" else none : Option String).toList
      = earlyInvisibleClauses c f := by
  by_cases h1 : c.invisible = true <;> by_cases h2 : f.IsMariaDB = true <;>
    by_cases h3 : f.MinMariaDB 11 7 = true <;>
    simp [earlyInvisibleClauses, h1, h2, h3]

theorem perconaPieceEq (c : Column) (f : Flavor) :
    (if c.compression ≠ "" ∧ f.IsPercona = true then
      some (f.compressedColumnOpenComment ++ "COLUMN_FORMAT " ++ c.compression ++ " */")
    else none : Option String).toList = perconaCompressionClauses c f := by
  by_cases h1 : c.compression = "" <;> by_cases h2 : f.IsPercona = true <;>
    simp [perconaCompressionClauses, h1, h2]

theorem defaultPieceEq (c : Column) :
    (if c.default ≠ "" then some ("DEFAULT " ++ c.default) else none : Option String).toList
      = defaultClauses c := by
  by_cases h1 : c.default = "" <;> simp [defaultClauses, h1]

theorem onUpdatePieceEq (c : Column) :
    (if c.onUpdate ≠ "" then some ("ON UPDATE " ++ c.onUpdate) else none : Option String).toList
      = onUpdateClauses c := by
  by_cases h1 : c.onUpdate = "" <;> simp [onUpdateClauses, h1]

theorem autoIncPieceEq (c : Column) :
    (if c.autoIncrement = true then some "AUTO_INCREMENT" else none : Option String).toList
      = autoIncrementClauses c := by
  by_cases h1 : c.autoIncrement = true <;> simp [autoIncrementClauses, h1]

theorem lateInvisPieceEq (c : Column) (f : Flavor) :
    (if c.invisible = true ∧ f.IsMySQL = true then some "/*!80023 INVISIBLE */"
    else if c.invisible = true ∧ f.MinMariaDB 11 7 = true then some "INVISIBLE"
    else none : Option String).toList = lateInvisibleClauses c f := by
  by_cases h1 : c.invisible = true <;> by_cases h2 : f.IsMySQL = true <;>
    by_cases h3 : f.MinMariaDB 11 7 = true <;>
    simp [lateInvisibleClauses, h1, h2, h3]

theorem commentPieceEq (c : Column) :
    (if c.comment ≠ "" then
      some ("COMMENT " ++ String.mk [squoteChar] ++ EscapeValueForCreateTable c.comment ++ String.mk [squoteChar])
    else none : Option String).toList = commentClauses c := by
  by_cases h1 : c.comment = "" <;> simp [commentClauses, h1]

theorem checkPieceEq (c : Column) :
    (if c.checkClause ≠ "" then some ("CHECK (" ++ c.checkClause ++ ")") else none : Option String).toList
      = checkClauses c := by
  by_cases h1 : c.checkClause = "" <;> simp [checkClauses, h1]

/-- C1: `Column.Definition` produces the single-space-joined clause
sequence in the exact flavor-conditional order of spec section 4.3,
omitting every absent clause; and the end-to-end example: a non-nullable
auto-increment bare-int column named id renders as
exactly `` `id` int NOT NULL AUTO_INCREMENT `` on every flavor. -/
theorem definition_matches_spec_order :
    (∀ (c : Column) (f : Flavor), Column.Definition c f = DefinitionSpec c f) ∧
    (∀ f : Flavor, Column.Definition idCol f = "`id` int NOT NULL AUTO_INCREMENT") := by
  constructor
  · intro c f
    unfold Column.Definition DefinitionSpec
    congr 1
    unfold Column.DefinitionClauses specClauseOptions
    simp only [filterMap_id_cons, List.filterMap_nil, Option.toList_some,
      typePieceEq, charSetPieceEq, collationPieceEq, generationPieceEq,
      nullabilityPieceEq, sridPieceEq, earlyInvisPieceEq, perconaPieceEq,
      defaultPieceEq, onUpdatePieceEq, autoIncPieceEq, lateInvisPieceEq,
      commentPieceEq, checkPieceEq, nameClause]
    simp [List.append_assoc]
  · intro f
    have h : Column.DefinitionClauses idCol f
        = [EscapeIdentifier "id", ColumnType.toStr { base := "int", displayWidth := none, mods := "" },
           "NOT NULL", "AUTO_INCREMENT"] := by
      unfold Column.DefinitionClauses
      simp [idCol, nameClause, typeClause, charSetClauses, collationClauses,
        generationClauses, nullabilityClauses, sridClauses, earlyInvisibleClauses,
        perconaCompressionClauses, defaultClauses, onUpdateClauses,
        autoIncrementClauses, lateInvisibleClauses, commentClauses, checkClauses]
    unfold Column.Definition
    rw [h]
    decide

theorem eqEmptyOfLenZero {s : String} (h : s.length = 0) : s = "" := by
  cases s with
  | mk data =>
    have h2 : data = [] := List.length_eq_zero.mp h
    subst h2
    rfl

theorem ne_append_left (p s q : String) (h : q.length < p.length) : q ≠ p ++ s := by
  intro e
  have e2 := congrArg String.length e
  rw [String.length_append] at e2
  omega

theorem ne_append_left_nonempty (p s q : String) (hlen : q.length ≤ p.length)
    (hs : s ≠ "") : q ≠ p ++ s := by
  intro e
  have e2 := congrArg String.length e
  rw [String.length_append] at e2
  have h3 : s.length ≠ 0 := fun h0 => hs (eqEmptyOfLenZero h0)
  omega

theorem not_mem_ite_singleton {p : Prop} [Decidable p] {s x : String}
    (h : p → ¬ s = x) : s ∉ (if p then [x] else []) := by
  by_cases hp : p
  · simp only [if_pos hp, List.mem_singleton]
    exact h hp
  · simp [hp]

theorem openComment_length (f : Flavor) :
    f.compressedColumnOpenComment.length = 11 ∨ f.compressedColumnOpenComment.length = 9 := by
  unfold Flavor.compressedColumnOpenComment
  split
  · left; rfl
  · right; rfl

theorem notin_nameClause {q : String} (hq : q.data.head? ≠ some bq) (c : Column) :
    ¬ (q = nameClause c) := by
  intro e
  unfold nameClause EscapeIdentifier at e
  have h2 := congrArg String.data e
  have h3 : q.data.head? = some bq := by rw [h2]; rfl
  exact hq h3

theorem notin_typeClause {q : String} (c : Column) (f : Flavor)
    (hq : q.length ≤ 8) (h1 : q ≠ c.type.toStr) : ¬ (q = typeClause c f) := by
  unfold typeClause
  split
  · intro e
    have e2 := congrArg String.length e
    simp only [String.length_append] at e2
    have l1 : (" " : String).length = 1 := rfl
    have l2 : ("*/" : String).length = 2 := rfl
    rw [l1, l2] at e2
    rcases openComment_length f with h | h <;> rw [h] at e2 <;> omega
  · exact h1

theorem notin_charSetClauses {q : String} (hq : q.length < 14) (c : Column) :
    q ∉ charSetClauses c :=
  not_mem_ite_singleton (fun _ => by
    apply ne_append_left
    have l1 : ("CHARACTER SET " : String).length = 14 := rfl
    omega)

theorem notin_collationClauses {q : String} (hq : q.length ≤ 8) (c : Column) :
    q ∉ collationClauses c :=
  not_mem_ite_singleton (fun hp => by
    simp only [Bool.and_eq_true, bne_iff_ne, ne_eq] at hp
    apply ne_append_left_nonempty _ _ _ _ hp.1
    have l1 : ("COLLATE " : String).length = 8 := rfl
    omega)

theorem notin_generationClauses {q : String} (hq : q.length ≤ 8) (c : Column) :
    q ∉ generationClauses c :=
  not_mem_ite_singleton (fun _ => by
    intro e
    have e2 := congrArg String.length e
    simp only [String.length_append] at e2
    have l1 : ("GENERATED ALWAYS AS (" : String).length = 21 := rfl
    have l2 : (") " : String).length = 2 := rfl
    rw [l1, l2] at e2
    omega)

theorem notin_sridClauses {q : String} (hq : q.length ≤ 8) (c : Column) (f : Flavor) :
    q ∉ sridClauses c f :=
  not_mem_ite_singleton (fun _ => by
    intro e
    have e2 := congrArg String.length e
    simp only [String.length_append] at e2
    have l1 : ("/*!80003 SRID " : String).length = 14 := rfl
    have l2 : (" */" : String).length = 3 := rfl
    rw [l1, l2] at e2
    omega)

theorem notin_earlyInvisibleClauses {q : String} (hq : q ≠ "INVISIBLE") (c : Column) (f : Flavor) :
    q ∉ earlyInvisibleClauses c f :=
  not_mem_ite_singleton (fun _ => hq)

theorem notin_perconaCompressionClauses {q : String} (hq : q.length ≤ 8) (c : Column) (f : Flavor) :
    q ∉ perconaCompressionClauses c f :=
  not_mem_ite_singleton (fun _ => by
    intro e
    have e2 := congrArg String.length e
    simp only [String.length_append] at e2
    have l1 : ("COLUMN_FORMAT " : String).length = 14 := rfl
    have l2 : (" */" : String).length = 3 := rfl
    rw [l1, l2] at e2
    rcases openComment_length f with h | h <;> rw [h] at e2 <;> omega)

theorem notin_defaultClauses {q : String} (hq : q.length ≤ 8) (c : Column) :
    q ∉ defaultClauses c :=
  not_mem_ite_singleton (fun hp => by
    simp only [bne_iff_ne, ne_eq] at hp
    apply ne_append_left_nonempty _ _ _ _ hp
    have l1 : ("DEFAULT " : String).length = 8 := rfl
    omega)

theorem notin_onUpdateClauses {q : String} (hq : q.length ≤ 8) (c : Column) :
    q ∉ onUpdateClauses c :=
  not_mem_ite_singleton (fun _ => by
    apply ne_append_left
    have l1 : ("ON UPDATE " : String).length = 10 := rfl
    omega)

theorem notin_autoIncrementClauses {q : String} (hq : q ≠ "AUTO_INCREMENT") (c : Column) :
    q ∉ autoIncrementClauses c :=
  not_mem_ite_singleton (fun _ => hq)

theorem notin_lateInvisibleClauses {q : String} (hq1 : q ≠ "/*!80023 INVISIBLE */")
    (hq2 : q ≠ "INVISIBLE") (c : Column) (f : Flavor) :
    q ∉ lateInvisibleClauses c f := by
  unfold lateInvisibleClauses
  by_cases h1 : c.invisible = true <;> by_cases h2 : f.IsMySQL = true <;>
    by_cases h3 : f.MinMariaDB 11 7 = true <;> simp [h1, h2, h3, hq1, hq2]

theorem notin_commentClauses {q : String} (hq : q.length ≤ 8) (c : Column) :
    q ∉ commentClauses c :=
  not_mem_ite_singleton (fun _ => by
    intro e
    have e2 := congrArg String.length e
    simp only [String.length_append] at e2
    have l1 : ("COMMENT " : String).length = 8 := rfl
    have l2 : (String.mk [squoteChar]).length = 1 := rfl
    rw [l1, l2] at e2
    omega)

theorem notin_checkClauses {q : String} (hq : q.length ≤ 8) (c : Column) :
    q ∉ checkClauses c :=
  not_mem_ite_singleton (fun hp => by
    simp only [bne_iff_ne, ne_eq] at hp
    intro e
    have e2 := congrArg String.length e
    simp only [String.length_append] at e2
    have l1 : ("CHECK (" : String).length = 7 := rfl
    have l2 : (")" : String).length = 1 := rfl
    rw [l1, l2] at e2
    have h3 : c.checkClause.length ≠ 0 := fun h0 => hp (eqEmptyOfLenZero h0)
    omega)

theorem notMemAppend {a : String} {s t : List String} (h1 : a ∉ s) (h2 : a ∉ t) :
    a ∉ s ++ t := by
  simp [List.mem_append, h1, h2]

theorem no_token_collision (c : Column) (f : Flavor) {q : String}
    (hqlen : q.length ≤ 8) (hqlt : q.length < 14)
    (hqinv : q ≠ "INVISIBLE") (hqinv2 : q ≠ "/*!80023 INVISIBLE */")
    (hqai : q ≠ "AUTO_INCREMENT") (hqhead : q.data.head? ≠ some bq)
    (ht : q ≠ c.type.toStr)
    (hnull : q ∉ nullabilityClauses c) :
    q ∉ Column.DefinitionClauses c f := by
  unfold Column.DefinitionClauses
  have h0 : q ∉ [nameClause c, typeClause c f] := by
    intro hm
    rcases List.mem_cons.mp hm with e | hm2
    · exact notin_nameClause hqhead c e
    · rcases List.mem_cons.mp hm2 with e | hm3
      · exact notin_typeClause c f hqlen ht e
      · simp at hm3
  exact notMemAppend (notMemAppend (notMemAppend (notMemAppend (notMemAppend (notMemAppend
    (notMemAppend (notMemAppend (notMemAppend (notMemAppend (notMemAppend (notMemAppend
      (notMemAppend h0 (notin_charSetClauses hqlt c))
      (notin_collationClauses hqlen c))
      (notin_generationClauses hqlen c))
      hnull)
      (notin_sridClauses hqlen c f))
      (notin_earlyInvisibleClauses hqinv c f))
      (notin_perconaCompressionClauses hqlen c f))
      (notin_defaultClauses hqlen c))
      (notin_onUpdateClauses hqlen c))
      (notin_autoIncrementClauses hqai c))
      (notin_lateInvisibleClauses hqinv2 hqinv c f))
      (notin_commentClauses hqlen c))
    (notin_checkClauses hqlen c)

/-- C3: for every column and flavor, a non-nullable column renders the
`NOT NULL` token, a nullable timestamp-base column renders the explicit
`NULL` token, and a nullable column of any other base type renders no
nullability token at all (requires the rendered type text, the only
free-form clause, not to collide with the two tokens). -/
theorem nullability_token_rendering (c : Column) (f : Flavor)
    (h1 : c.type.toStr ≠ "NULL") (h2 : c.type.toStr ≠ "NOT NULL") :
    (c.nullable = false → "NOT NULL" ∈ Column.DefinitionClauses c f) ∧
    (c.nullable = true → c.type.base = "timestamp" → "NULL" ∈ Column.DefinitionClauses c f) ∧
    (c.nullable = true → c.type.base ≠ "timestamp" →
      "NOT NULL" ∉ Column.DefinitionClauses c f ∧ "NULL" ∉ Column.DefinitionClauses c f) := by
  refine ⟨?_, ?_, ?_⟩
  · intro hn
    simp [Column.DefinitionClauses, nullabilityClauses, hn, List.mem_append]
  · intro hn ht
    simp [Column.DefinitionClauses, nullabilityClauses, hn, ht, List.mem_append]
  · intro hn ht
    have hnull1 : "NOT NULL" ∉ nullabilityClauses c := by
      simp [nullabilityClauses, hn, ht]
    have hnull2 : "NULL" ∉ nullabilityClauses c := by
      simp [nullabilityClauses, hn, ht]
    exact ⟨no_token_collision c f (by decide) (by decide) (by decide) (by decide)
        (by decide) (by decide) (Ne.symm h2) hnull1,
      no_token_collision c f (by decide) (by decide) (by decide) (by decide)
        (by decide) (by decide) (Ne.symm h1) hnull2⟩

/-- Witness for C3 at a concrete input. -/
theorem nullability_token_rendering_witness :
    "NOT NULL" ∈ Column.DefinitionClauses idCol flavorMySQL8 :=
  (nullability_token_rendering idCol flavorMySQL8 (by decide) (by decide)).1 (by decide)

/-- C4: the SRID clause is emitted iff the presence flag is set and the
flavor is MySQL of major version at least 8; with the flag set it appears
in the rendered clause list, and with value 0 it reads `SRID 0`; with the
flag unset the SRID piece is empty regardless of the raw value. -/
theorem srid_clause_rendering :
    (∀ (c : Column) (f : Flavor),
      sridClauses c f ≠ [] ↔ (c.hasSpatialReference = true ∧ f.MinMySQL 8 = true)) ∧
    (∀ (c : Column) (f : Flavor), c.hasSpatialReference = true → f.MinMySQL 8 = true →
      ("/*!80003 SRID " ++ toString c.spatialReferenceID ++ " */") ∈ Column.DefinitionClauses c f) ∧
    (∀ (c : Column) (f : Flavor), c.hasSpatialReference = false → sridClauses c f = []) ∧
    (∀ (c : Column) (f : Flavor), c.hasSpatialReference = true → c.spatialReferenceID = 0 →
      f.MinMySQL 8 = true → sridClauses c f = ["/*!80003 SRID 0 */"]) := by
  refine ⟨?_, ?_, ?_, ?_⟩
  · intro c f
    by_cases h1 : c.hasSpatialReference = true <;> by_cases h2 : f.MinMySQL 8 = true <;>
      simp [sridClauses, h1, h2]
  · intro c f h1 h2
    simp [Column.DefinitionClauses, sridClauses, h1, h2, List.mem_append]
  · intro c f h1
    simp [sridClauses, h1]
  · intro c f h1 h2 h3
    simp only [sridClauses, h1, h2, h3, Bool.true_and, if_pos]
    decide

/-- Witness for C4 at a concrete input. -/
theorem srid_clause_rendering_witness :
    ("/*!80003 SRID " ++ toString sridZeroCol.spatialReferenceID ++ " */")
        ∈ Column.DefinitionClauses sridZeroCol flavorMySQL8 ∧
      sridClauses sridZeroCol flavorMySQL8 = ["/*!80003 SRID 0 */"] :=
  ⟨srid_clause_rendering.2.1 sridZeroCol flavorMySQL8 (by decide) (by decide),
   srid_clause_rendering.2.2.2 sridZeroCol flavorMySQL8 (by decide) (by decide) (by decide)⟩

/-- C5: for every column and flavor at most one invisibility clause is
emitted (the early MariaDB placement and the late MySQL / MariaDB 11.7+
placement never both fire), and at most one compression clause is emitted
(the MariaDB inline-after-type form and the separate Percona
COLUMN_FORMAT comment never both fire). -/
theorem single_invisibility_and_compression_placement :
    ∀ (c : Column) (f : Flavor),
      (earlyInvisibleClauses c f = [] ∨ lateInvisibleClauses c f = []) ∧
      (earlyInvisibleClauses c f).length ≤ 1 ∧
      (lateInvisibleClauses c f).length ≤ 1 ∧
      (typeClause c f = c.type.toStr ∨ perconaCompressionClauses c f = []) ∧
      (perconaCompressionClauses c f).length ≤ 1 := by
  intro c f
  obtain ⟨v, mj, mn, pt⟩ := f
  refine ⟨?_, ?_, ?_, ?_, ?_⟩
  · cases v
    · left
      simp [earlyInvisibleClauses, Flavor.IsMariaDB]
    · by_cases hv : Flavor.verAtLeast ⟨Vendor.mariadb, mj, mn, pt⟩ 11 7 = true
      · left
        simp [earlyInvisibleClauses, Flavor.MinMariaDB, Flavor.IsMariaDB, hv]
      · right
        simp only [Bool.not_eq_true] at hv
        simp [lateInvisibleClauses, Flavor.IsMySQL, Flavor.MinMariaDB, Flavor.IsMariaDB, hv]
    · left
      simp [earlyInvisibleClauses, Flavor.IsMariaDB]
  · unfold earlyInvisibleClauses
    split <;> simp
  · unfold lateInvisibleClauses
    split
    · split
      · simp
      · split <;> simp
    · simp
  · cases v
    · right
      simp [perconaCompressionClauses, Flavor.IsPercona]
    · right
      simp [perconaCompressionClauses, Flavor.IsPercona]
    · left
      simp [typeClause, Flavor.IsMariaDB]
  · unfold perconaCompressionClauses
    split <;> simp

theorem charsetsEquivalent_refl (a : String) : charsetsEquivalent a a = true := by
  simp [charsetsEquivalent]

theorem collationsEquivalent_refl (a : String) : collationsEquivalent a a = true := by
  simp [collationsEquivalent]

theorem charsetsEquivalent_iff (a b : String) :
    charsetsEquivalent a b = true ↔
      (a = b ∨ (a = "utf8mb3" ∧ b = "utf8") ∨ (a = "utf8" ∧ b = "utf8mb3")) := by
  simp [charsetsEquivalent, Bool.or_eq_true, Bool.and_eq_true, beq_iff_eq, or_assoc]

theorem charsetsEquivalent_comm (a b : String) :
    charsetsEquivalent a b = charsetsEquivalent b a := by
  rw [Bool.eq_iff_iff, charsetsEquivalent_iff, charsetsEquivalent_iff]
  constructor
  · rintro (rfl | ⟨rfl, rfl⟩ | ⟨rfl, rfl⟩)
    · exact Or.inl rfl
    · exact Or.inr (Or.inr ⟨rfl, rfl⟩)
    · exact Or.inr (Or.inl ⟨rfl, rfl⟩)
  · rintro (rfl | ⟨rfl, rfl⟩ | ⟨rfl, rfl⟩)
    · exact Or.inl rfl
    · exact Or.inr (Or.inr ⟨rfl, rfl⟩)
    · exact Or.inr (Or.inl ⟨rfl, rfl⟩)

theorem collationsEquivalent_iff (a b : String) :
    collationsEquivalent a b = true ↔
      (a = b ∨ ((cutUnderscore a).2 = (cutUnderscore b).2 ∧
        (((cutUnderscore a).1 = "utf8" ∧ (cutUnderscore b).1 = "utf8mb3") ∨
         ((cutUnderscore a).1 = "utf8mb3" ∧ (cutUnderscore b).1 = "utf8")))) := by
  unfold collationsEquivalent
  by_cases h : a = b
  · simp [h]
  · by_cases h2 : (cutUnderscore a).2 = (cutUnderscore b).2 <;>
      simp [h, h2, bne_iff_ne, Bool.or_eq_true, Bool.and_eq_true, beq_iff_eq, and_or_left]

theorem collationsEquivalent_comm (a b : String) :
    collationsEquivalent a b = collationsEquivalent b a := by
  rw [Bool.eq_iff_iff, collationsEquivalent_iff, collationsEquivalent_iff]
  constructor
  · rintro (rfl | ⟨h1, h2 | h2⟩)
    · left; rfl
    · exact Or.inr ⟨h1.symm, Or.inr ⟨h2.2, h2.1⟩⟩
    · exact Or.inr ⟨h1.symm, Or.inl ⟨h2.2, h2.1⟩⟩
  · rintro (rfl | ⟨h1, h2 | h2⟩)
    · left; rfl
    · exact Or.inr ⟨h1.symm, Or.inr ⟨h2.2, h2.1⟩⟩
    · exact Or.inr ⟨h1.symm, Or.inl ⟨h2.2, h2.1⟩⟩

theorem typeEquivalent_refl (t : ColumnType) : ColumnType.Equivalent t t = true := by
  simp [ColumnType.Equivalent]

theorem typeEquivalent_iff (t u : ColumnType) :
    ColumnType.Equivalent t u = true ↔
      (t = u ∨ (t.base = u.base ∧ t.mods = u.mods ∧
        ((t.displayWidth.isSome = true ∧ u.displayWidth = none) ∨
         (t.displayWidth = none ∧ u.displayWidth.isSome = true)))) := by
  simp [ColumnType.Equivalent, Bool.or_eq_true, Bool.and_eq_true, beq_iff_eq,
    Option.isNone_iff_eq_none, and_assoc]

theorem typeEquivalent_comm (t u : ColumnType) :
    ColumnType.Equivalent t u = ColumnType.Equivalent u t := by
  rw [Bool.eq_iff_iff, typeEquivalent_iff, typeEquivalent_iff]
  constructor
  · rintro (rfl | ⟨h1, h2, h3 | h3⟩)
    · left; rfl
    · exact Or.inr ⟨h1.symm, h2.symm, Or.inr ⟨h3.2, h3.1⟩⟩
    · exact Or.inr ⟨h1.symm, h2.symm, Or.inl ⟨h3.2, h3.1⟩⟩
  · rintro (rfl | ⟨h1, h2, h3 | h3⟩)
    · left; rfl
    · exact Or.inr ⟨h1.symm, h2.symm, Or.inr ⟨h3.2, h3.1⟩⟩
    · exact Or.inr ⟨h1.symm, h2.symm, Or.inl ⟨h3.2, h3.1⟩⟩

theorem equals_refl (a : Option Column) : Column.Equals a a = true := by
  cases a <;> simp [Column.Equals]

theorem equals_comm (a b : Option Column) : Column.Equals a b = Column.Equals b a := by
  cases a <;> cases b <;> simp [Column.Equals]
  exact eq_comm

theorem charsetReplace_iff (s t : String) :
    (if charsetsEquivalent s t then t else s) = t ↔ charsetsEquivalent s t = true := by
  by_cases h : charsetsEquivalent s t = true
  · simp [h]
  · rw [if_neg h]
    constructor
    · intro e
      rw [e] at h
      exact absurd (charsetsEquivalent_refl t) h
    · intro hh
      exact absurd hh h

theorem collationReplace_iff (s t : String) :
    (if collationsEquivalent s t then t else s) = t ↔ collationsEquivalent s t = true := by
  by_cases h : collationsEquivalent s t = true
  · simp [h]
  · rw [if_neg h]
    constructor
    · intro e
      rw [e] at h
      exact absurd (collationsEquivalent_refl t) h
    · intro hh
      exact absurd hh h

theorem equivalent_some_iff (x y : Column) :
    Column.Equivalent (some x) (some y) = true ↔
      (x = y ∨ (ColumnType.Equivalent x.type y.type = true ∧ selfCopyNormalized x y = y)) := by
  by_cases h : x = y
  · subst h
    simp [Column.Equivalent, Column.Equals]
  · have he : Column.Equals (some x) (some y) = false := by
      simp [Column.Equals, h]
    by_cases h2 : ColumnType.Equivalent x.type y.type = true <;>
      simp [Column.Equivalent, he, h2, h]

theorem selfCopy_eq_iff (x y : Column) :
    selfCopyNormalized x y = y ↔
      (x.name = y.name ∧ x.nullable = y.nullable ∧ x.autoIncrement = y.autoIncrement ∧
       x.default = y.default ∧ x.onUpdate = y.onUpdate ∧ x.generationExpr = y.generationExpr ∧
       x.virtual = y.virtual ∧ charsetsEquivalent x.charSet y.charSet = true ∧
       collationsEquivalent x.collation y.collation = true ∧ x.compression = y.compression ∧
       x.comment = y.comment ∧ x.invisible = y.invisible ∧ x.checkClause = y.checkClause ∧
       x.spatialReferenceID = y.spatialReferenceID ∧
       x.hasSpatialReference = y.hasSpatialReference) := by
  obtain ⟨n1, t1, nu1, a1, d1, o1, g1, v1, cs1, co1, sc1, so1, cp1, cm1, i1, ck1, sp1, hs1⟩ := x
  obtain ⟨n2, t2, nu2, a2, d2, o2, g2, v2, cs2, co2, sc2, so2, cp2, cm2, i2, ck2, sp2, hs2⟩ := y
  simp only [selfCopyNormalized, Column.mk.injEq]
  rw [charsetReplace_iff, collationReplace_iff]
  tauto

theorem equivalent_some_symm {x y : Column} (h : Column.Equivalent (some x) (some y) = true) :
    Column.Equivalent (some y) (some x) = true := by
  rw [equivalent_some_iff] at h ⊢
  rcases h with rfl | ⟨h1, h2⟩
  · exact Or.inl rfl
  · right
    rw [selfCopy_eq_iff] at h2
    obtain ⟨e1, e2, e3, e4, e5, e6, e7, hce, hcle, e8, e9, e10, e11, e12, e13⟩ := h2
    refine ⟨by rw [typeEquivalent_comm]; exact h1, ?_⟩
    rw [selfCopy_eq_iff]
    exact ⟨e1.symm, e2.symm, e3.symm, e4.symm, e5.symm, e6.symm, e7.symm,
      by rw [charsetsEquivalent_comm]; exact hce,
      by rw [collationsEquivalent_comm]; exact hcle,
      e8.symm, e9.symm, e10.symm, e11.symm, e12.symm, e13.symm⟩

theorem equivalent_refl (a : Option Column) : Column.Equivalent a a = true := by
  cases a with
  | none => simp [Column.Equivalent, Column.Equals]
  | some x => simp [Column.Equivalent, Column.Equals]

/-- C6: `Equals` and `Equivalent` are reflexive and symmetric; two nil
references compare equal and equivalent to each other, and a nil
reference is unequal and non-equivalent to every non-nil column. -/
theorem equals_equivalent_reflexive_symmetric :
    (∀ a : Option Column, Column.Equals a a = true) ∧
    (∀ a b : Option Column, Column.Equals a b = Column.Equals b a) ∧
    (∀ a : Option Column, Column.Equivalent a a = true) ∧
    (∀ a b : Option Column, Column.Equivalent a b = Column.Equivalent b a) ∧
    (Column.Equals none none = true ∧ Column.Equivalent none none = true) ∧
    (∀ x : Column, Column.Equals none (some x) = false ∧ Column.Equals (some x) none = false ∧
      Column.Equivalent none (some x) = false ∧ Column.Equivalent (some x) none = false) := by
  refine ⟨equals_refl, equals_comm, equivalent_refl, ?_, ⟨rfl, equivalent_refl none⟩, ?_⟩
  · intro a b
    cases a <;> cases b
    · rfl
    · simp [Column.Equivalent, Column.Equals]
    · simp [Column.Equivalent, Column.Equals]
    · rw [Bool.eq_iff_iff]
      constructor <;> intro h <;> exact equivalent_some_symm h
  · intro x
    exact ⟨by simp [Column.Equals], by simp [Column.Equals],
      by simp [Column.Equivalent, Column.Equals], by simp [Column.Equivalent, Column.Equals]⟩

/-- C2: `Column.Equivalent` matches the spec algorithm: true iff the two
references are equal, or both are present with type-equivalent structured
types and the normalized copy of the first — type and both visibility
flags replaced unconditionally, charset replaced iff charset-equivalent,
collation replaced iff collation-equivalent — is fully equal to the
second. -/
theorem equivalent_matches_spec_algorithm (a b : Option Column) :
    Column.Equivalent a b = true ↔
      (Column.Equals a b = true ∨
        ∃ x y, a = some x ∧ b = some y ∧ ColumnType.Equivalent x.type y.type = true ∧
          ({ x with
              type := y.type
              showCharSet := y.showCharSet
              showCollation := y.showCollation
              charSet := if charsetsEquivalent x.charSet y.charSet then y.charSet else x.charSet
              collation := if collationsEquivalent x.collation y.collation then y.collation else x.collation } : Column) = y) := by
  cases a with
  | none =>
    cases b with
    | none => simp [Column.Equivalent, Column.Equals]
    | some y => simp [Column.Equivalent, Column.Equals]
  | some x =>
    cases b with
    | none => simp [Column.Equivalent, Column.Equals]
    | some y =>
      rw [equivalent_some_iff]
      constructor
      · rintro (rfl | ⟨h1, h2⟩)
        · exact Or.inl (equals_refl (some x))
        · exact Or.inr ⟨x, y, rfl, rfl, h1, h2⟩
      · rintro (h | ⟨x2, y2, hx, hy, h1, h2⟩)
        · have : x = y := by simpa [Column.Equals] using h
          exact Or.inl this
        · obtain rfl : x = x2 := Option.some.inj hx
          obtain rfl : y = y2 := Option.some.inj hy
          exact Or.inr ⟨h1, h2⟩

/-- C7: `equals` implies `equivalent`, and the converse fails: two columns
differing only in a charset visibility flag are equivalent but unequal. -/
theorem equals_implies_equivalent_not_conversely :
    (∀ a b : Option Column, Column.Equals a b = true → Column.Equivalent a b = true) ∧
    (Column.Equivalent (some visColA) (some visColB) = true ∧
     Column.Equals (some visColA) (some visColB) = false) := by
  refine ⟨?_, by decide, by decide⟩
  intro a b h
  simp [Column.Equivalent, h]

/-- Witness for C7 at a concrete input. -/
theorem equals_implies_equivalent_witness :
    Column.Equivalent (some idCol) (some idCol) = true :=
  equals_implies_equivalent_not_conversely.1 (some idCol) (some idCol) (by decide)

/-- C8: comment differences are never cosmetic: two columns identical in
every field except the comment text are neither equal nor equivalent. -/
theorem comment_differences_not_cosmetic (c : Column) (s t : String) (h : s ≠ t) :
    Column.Equals (some { c with comment := s }) (some { c with comment := t }) = false ∧
    Column.Equivalent (some { c with comment := s }) (some { c with comment := t }) = false := by
  have hne : ({ c with comment := s } : Column) ≠ { c with comment := t } := by
    intro e
    exact h (congrArg Column.comment e)
  have hcopy : selfCopyNormalized { c with comment := s } { c with comment := t }
      ≠ { c with comment := t } := by
    intro e
    exact h (congrArg Column.comment e)
  have heq : Column.Equals (some { c with comment := s }) (some { c with comment := t }) = false := by
    simp [Column.Equals, hne]
  refine ⟨heq, ?_⟩
  by_cases h2 : ColumnType.Equivalent ({ c with comment := s } : Column).type
      ({ c with comment := t } : Column).type = true <;>
    simp [Column.Equivalent, heq, h2, hcopy]

/-- Witness for C8 at a concrete input. -/
theorem comment_differences_not_cosmetic_witness :
    Column.Equals (some { idCol with comment := "a" }) (some { idCol with comment := "b" }) = false ∧
    Column.Equivalent (some { idCol with comment := "a" }) (some { idCol with comment := "b" }) = false :=
  comment_differences_not_cosmetic idCol "a" "b" (by decide)

/-- C9: charset-equivalence is exactly equality or the utf8/utf8mb3 alias
pair; collation-equivalence is equality, or same rest after the first
underscore with the alias pair as charset parts; the spec examples hold,
and an utf8 column is equivalent to its utf8mb3 twin in both directions. -/
theorem charset_collation_alias_rules :
    (∀ a b : String, charsetsEquivalent a b = true ↔
      (a = b ∨ (a = "utf8mb3" ∧ b = "utf8") ∨ (a = "utf8" ∧ b = "utf8mb3"))) ∧
    (∀ a b : String, collationsEquivalent a b = true ↔
      (a = b ∨ ((cutUnderscore a).2 = (cutUnderscore b).2 ∧
        (((cutUnderscore a).1 = "utf8" ∧ (cutUnderscore b).1 = "utf8mb3") ∨
         ((cutUnderscore a).1 = "utf8mb3" ∧ (cutUnderscore b).1 = "utf8"))))) ∧
    collationsEquivalent "utf8_general_ci" "utf8mb3_general_ci" = true ∧
    collationsEquivalent "utf8_general_ci" "utf8_bin" = false ∧
    Column.Equivalent (some u8Col) (some u8mb3Col) = true ∧
    Column.Equivalent (some u8mb3Col) (some u8Col) = true :=
  ⟨charsetsEquivalent_iff, collationsEquivalent_iff, by decide, by decide, by decide, by decide⟩

theorem cutChar_not_mem {sep : Char} : ∀ {l : List Char}, sep ∉ l → cutChar sep l = (l, [])
  | [], _ => rfl
  | c :: rest, h => by
    have hc : ¬ (c = sep) := fun e => h (by rw [e]; exact List.mem_cons_self _ _)
    have hr : sep ∉ rest := fun m => h (List.mem_cons_of_mem _ m)
    unfold cutChar
    rw [if_neg hc]
    simp [cutChar_not_mem hr]

theorem cut_no_underscore (s : String) (h : Char.ofNat 95 ∉ s.data) : cutUnderscore s = (s, "") := by
  unfold cutUnderscore
  rw [cutChar_not_mem h]

/-- C10: splitting an underscore-free name yields the whole name as the
charset part and an empty rest, so two underscore-free names are
collation-equivalent exactly when equal or the utf8/utf8mb3 pair; in
particular the bare names utf8 and utf8mb3 are collation-equivalent. -/
theorem underscore_free_collation_names :
    (∀ s : String, Char.ofNat 95 ∉ s.data → cutUnderscore s = (s, "")) ∧
    (∀ a b : String, Char.ofNat 95 ∉ a.data → Char.ofNat 95 ∉ b.data →
      (collationsEquivalent a b = true ↔
        (a = b ∨ (a = "utf8" ∧ b = "utf8mb3") ∨ (a = "utf8mb3" ∧ b = "utf8")))) ∧
    collationsEquivalent "utf8" "utf8mb3" = true := by
  refine ⟨cut_no_underscore, ?_, by decide⟩
  intro a b ha hb
  rw [collationsEquivalent_iff, cut_no_underscore a ha, cut_no_underscore b hb]
  simp

/-- Witness for C10 at a concrete input. -/
theorem underscore_free_collation_names_witness : cutUnderscore "utf8" = ("utf8", "") :=
  underscore_free_collation_names.1 "utf8" (by decide)
